import Mathlib

/-!
# PodcastFactory — Timeline & Mixing Engine, shallow embedding

This file embeds the timeline/mixing core of the PodcastFactory repository
(`src/services/video-processing/AudioVideoSync.ts` and the `AudioMixer`
timeline class) into Lean 4 and proves properties of the embedded code.

Floating-point sample values are modelled as rationals (`ℚ`); machine
arrays (`Float32Array`, channel data) are modelled as `List ℚ`; byte
buffers (`ArrayBuffer`/`DataView`) are modelled as `List ℕ` of bytes.
-/

namespace PodcastFactory

/-- Embeds `AudioVideoSyncSettings` (AudioVideoSync.ts lines 5-11); the
`syncMode` string field is irrelevant to the mixing arithmetic. -/
structure AudioVideoSyncSettings where
  audioFadeIn : ℚ
  audioFadeOut : ℚ
  videoStartOffset : ℚ
  audioStartOffset : ℚ
deriving DecidableEq, Repr

/-- Embeds `getDefaultSettings` (AudioVideoSync.ts lines 35-43). -/
def getDefaultSettings : AudioVideoSyncSettings :=
  { audioFadeIn := 1/2
    audioFadeOut := 1/2
    videoStartOffset := 0
    audioStartOffset := 0 }

/-- The Web Audio `AudioBuffer`: a sample rate (integral Hz) and a list of
channels of float samples. -/
structure AudioBuffer where
  sampleRate : ℕ
  chans : List (List ℚ)
deriving DecidableEq, Repr

/-- `AudioBuffer.numberOfChannels`. -/
def AudioBuffer.numberOfChannels (b : AudioBuffer) : ℕ := b.chans.length

/-- `AudioBuffer.length` (frame count; channel 0 is the reference, all
channels of a well-formed buffer have this length). -/
def AudioBuffer.length (b : AudioBuffer) : ℕ := (b.chans.headD []).length

/-- `AudioBuffer.getChannelData(c)`. -/
def AudioBuffer.getChannelData (b : AudioBuffer) (c : ℕ) : List ℚ :=
  b.chans.getD c []

/-- Embeds the `AudioClip` record of `src/types/project.ts` (the fields the
timeline/mixing engine reads; `filePath`/`waveformData`/`effects` are
carried opaquely by the UI and never enter the arithmetic modelled here). -/
structure AudioClip where
  id : String
  filename : String
  duration : ℚ
  startTime : ℚ
  endTime : ℚ
  volume : ℚ
  trackIndex : Option ℕ
deriving DecidableEq, Repr

/-- Embeds `SyncedAudioTrack` (AudioVideoSync.ts lines 13-19). -/
structure SyncedAudioTrack where
  audioClip : AudioClip
  audioBuffer : AudioBuffer
  startTime : ℚ
  endTime : ℚ
  volume : ℚ
deriving DecidableEq, Repr

/-- Embeds `AudioVideoSync.calculateVolumeAtTime` (AudioVideoSync.ts lines
159-175): fade-in factor, fade-out factor, then `Math.max(0, Math.min(1, v))`. -/
def calculateVolumeAtTime (settings : AudioVideoSyncSettings)
    (currentTime totalDuration baseVolume : ℚ) : ℚ :=
  let volume := baseVolume
  let volume :=
    if currentTime < settings.audioFadeIn then
      volume * (currentTime / settings.audioFadeIn)
    else volume
  let fadeOutStart := totalDuration - settings.audioFadeOut
  let volume :=
    if currentTime > fadeOutStart then
      volume * (1 - (currentTime - fadeOutStart) / settings.audioFadeOut)
    else volume
  max 0 (min 1 volume)

/-- The peak scan of `AudioVideoSync.normalizeAudioBuffer` (AudioVideoSync.ts
lines 178-186): running maximum of `|sample|` over every channel, seeded 0. -/
def bufferPeak (b : AudioBuffer) : ℚ :=
  b.chans.foldl (fun m ch => ch.foldl (fun m2 s => max m2 |s|) m) 0

/-- Embeds `AudioVideoSync.normalizeAudioBuffer` (AudioVideoSync.ts lines
177-201); `0.95` is the rational 19/20. -/
def normalizeAudioBuffer (b : AudioBuffer) : AudioBuffer :=
  let maxSample := bufferPeak b
  if maxSample > 19/20 then
    let normalizationFactor := (19/20) / maxSample
    { b with chans := b.chans.map (fun ch => ch.map (· * normalizationFactor)) }
  else b

/-- `Math.max(...xs)` for a list known non-empty at the call sites
(`mixAudioTracks` line 108, `updateScrollLimits` line 740). -/
def listMaxQ : List ℚ → ℚ
  | [] => 0
  | x :: xs => xs.foldl max x

/-- Embeds the per-track body of the mixing loop of
`AudioVideoSync.mixAudioTracks` (AudioVideoSync.ts lines 125-150): the
`for` loop over source indices `i` with condition
`i < trackSamples && startSample + i < totalSamples` is a fold over
`List.range trackSamples` guarded by the (monotone) second condition;
`endSample` is computed by the source but never used. -/
def mixTrackInto (settings : AudioVideoSyncSettings) (sampleRate : ℕ)
    (totalSamples : ℤ) (out : List ℚ × List ℚ) (track : SyncedAudioTrack) :
    List ℚ × List ℚ :=
  let startSample : ℤ := ⌊track.startTime * (sampleRate : ℚ)⌋
  let _endSample : ℤ := ⌊track.endTime * (sampleRate : ℚ)⌋
  let trackSamples := track.audioBuffer.length
  let inputLeft := track.audioBuffer.getChannelData 0
  let inputRight :=
    if 1 < track.audioBuffer.numberOfChannels then
      track.audioBuffer.getChannelData 1
    else inputLeft
  (List.range trackSamples).foldl (fun acc (i : ℕ) =>
    if startSample + (i : ℤ) < totalSamples then
      let outputIndex : ℤ := startSample + (i : ℤ)
      if 0 ≤ outputIndex ∧ outputIndex < totalSamples then
        let volume := calculateVolumeAtTime settings ((i : ℚ) / (sampleRate : ℚ))
          track.audioClip.duration track.volume
        let j := outputIndex.toNat
        (acc.1.set j (acc.1.getD j 0 + inputLeft.getD i 0 * volume),
         acc.2.set j (acc.2.getD j 0 + inputRight.getD i 0 * volume))
      else acc
    else acc) out

/-- Embeds `AudioVideoSync.mixAudioTracks` (AudioVideoSync.ts lines 102-157):
empty input throws; otherwise a stereo master buffer of
`ceil(totalDuration * sampleRate)` zero samples is allocated, every track is
summed into it, and the result is normalized. -/
def mixAudioTracks (settings : AudioVideoSyncSettings)
    (syncedTracks : List SyncedAudioTrack) : Except String AudioBuffer :=
  match syncedTracks with
  | [] => .error "No audio tracks to mix"
  | t0 :: _ =>
    let totalDuration := listMaxQ (syncedTracks.map (·.endTime))
    let sampleRate := t0.audioBuffer.sampleRate
    let totalSamples : ℤ := ⌈totalDuration * (sampleRate : ℚ)⌉
    let n := totalSamples.toNat
    let init : List ℚ × List ℚ := (List.replicate n 0, List.replicate n 0)
    let mixed := syncedTracks.foldl (mixTrackInto settings sampleRate totalSamples) init
    .ok (normalizeAudioBuffer { sampleRate := sampleRate, chans := [mixed.1, mixed.2] })

/-- Embeds `AudioVideoSync.prepareAudioTracks` (AudioVideoSync.ts lines
67-97). Fetching + decoding + `processAudioFile` are external effects; they
are abstracted by a `decode` oracle, `none` meaning the `catch` branch fired
(the clip is skipped), `some buf` meaning the processed buffer. -/
def prepareAudioTracks (settings : AudioVideoSyncSettings)
    (decode : AudioClip → Option AudioBuffer) (audioTracks : List AudioClip) :
    List SyncedAudioTrack :=
  audioTracks.foldl (fun syncedTracks audioClip =>
    match decode audioClip with
    | some processedBuffer =>
      syncedTracks ++ [{ audioClip := audioClip
                         audioBuffer := processedBuffer
                         startTime := audioClip.startTime + settings.audioStartOffset
                         endTime := audioClip.endTime + settings.audioStartOffset
                         volume := audioClip.volume }]
    | none => syncedTracks) []

/-- Truncating float→int conversion ("round toward zero"), the conversion
`DataView.setInt16` applies to a non-integral JS number. `Int.tdiv` is
T-division, which rounds toward zero also for negative numerators
(Lean's `/` on `ℤ` is Euclidean and would floor them). -/
def truncQ (q : ℚ) : ℤ := q.num.tdiv (q.den : ℤ)

/-- `DataView.setUint8(o, v)` on a byte list. -/
def setUint8 (buf : List ℕ) (o : ℕ) (v : ℕ) : List ℕ := buf.set o (v % 256)

/-- `DataView.setUint16(o, v, true)` (little-endian) on a byte list. -/
def setUint16 (buf : List ℕ) (o : ℕ) (v : ℕ) : List ℕ :=
  (buf.set o (v % 256)).set (o+1) (v / 256 % 256)

/-- `DataView.setUint32(o, v, true)` (little-endian) on a byte list. -/
def setUint32 (buf : List ℕ) (o : ℕ) (v : ℕ) : List ℕ :=
  ((((buf.set o (v % 256)).set (o+1) (v / 256 % 256)).set
    (o+2) (v / 65536 % 256)).set (o+3) (v / 16777216 % 256))

/-- `DataView.setInt16(o, v, true)`: the int is reduced mod 2^16 and stored
little-endian. -/
def setInt16 (buf : List ℕ) (o : ℕ) (v : ℤ) : List ℕ :=
  (buf.set o ((v % 65536).toNat % 256)).set (o+1) ((v % 65536).toNat / 256)

/-- The `writeString` helper of `exportAudioAsWAV` (AudioVideoSync.ts lines
271-275): one byte per character (`charCodeAt`, ASCII here). -/
def writeStr (buf : List ℕ) (o : ℕ) (s : String) : List ℕ :=
  s.toList.enum.foldl (fun acc p => setUint8 acc (o + p.1) p.2.toNat) buf

/-- Embeds `AudioVideoSync.exportAudioAsWAV` (AudioVideoSync.ts lines
263-302): a zeroed byte buffer of `44 + length*channels*2` bytes receives
the header fields at their `DataView` offsets, then the interleaved sample
loop writes `setInt16(offset, clamp(sample)*0x7FFF)` advancing by 2. -/
def exportAudioAsWAV (audioBuffer : AudioBuffer) : List ℕ :=
  let length := audioBuffer.length
  let numberOfChannels := audioBuffer.numberOfChannels
  let sampleRate := audioBuffer.sampleRate
  let buf := List.replicate (44 + length * numberOfChannels * 2) 0
  let buf := writeStr buf 0 "RIFF"
  let buf := setUint32 buf 4 (36 + length * numberOfChannels * 2)
  let buf := writeStr buf 8 "WAVE"
  let buf := writeStr buf 12 "fmt "
  let buf := setUint32 buf 16 16
  let buf := setUint16 buf 20 1
  let buf := setUint16 buf 22 numberOfChannels
  let buf := setUint32 buf 24 sampleRate
  let buf := setUint32 buf 28 (sampleRate * numberOfChannels * 2)
  let buf := setUint16 buf 32 (numberOfChannels * 2)
  let buf := setUint16 buf 34 16
  let buf := writeStr buf 36 "data"
  let buf := setUint32 buf 40 (length * numberOfChannels * 2)
  let final := (List.range length).foldl (fun (acc : List ℕ × ℕ) i =>
    (List.range numberOfChannels).foldl (fun acc2 channel =>
      let sample := max (-1) (min 1 ((audioBuffer.getChannelData channel).getD i 0))
      (setInt16 acc2.1 acc2.2 (truncQ (sample * 32767)), acc2.2 + 2)) acc)
    (buf, 44)
  final.1

/-- Little-endian bytes of a 16-bit unsigned value (spec-side helper). -/
def u16le (v : ℕ) : List ℕ := [v % 256, v / 256 % 256]

/-- Little-endian bytes of a 32-bit unsigned value (spec-side helper). -/
def u32le (v : ℕ) : List ℕ :=
  [v % 256, v / 256 % 256, v / 65536 % 256, v / 16777216 % 256]

/-- Little-endian two's-complement bytes of a 16-bit signed value
(spec-side helper). -/
def i16le (v : ℤ) : List ℕ := [(v % 65536).toNat % 256, (v % 65536).toNat / 256]

/-- ASCII bytes of a chunk id (spec-side helper). -/
def asciiBytes (s : String) : List ℕ := s.toList.map Char.toNat

/-- Modelled from the spec (§4.5 PCM Container Encoder): the 44-byte header
layout — `RIFF` size `WAVE` `fmt ` subchunk-size format-tag channels
sample-rate byte-rate block-align bits-per-sample `data` data-size, all
multi-byte fields little-endian — parameterized by the data-chunk byte
count `m`, channel count `ch` and sample rate. -/
def wavHeader (m ch rate : ℕ) : List ℕ :=
  asciiBytes "RIFF" ++ u32le (36 + m) ++ asciiBytes "WAVE" ++
  asciiBytes "fmt " ++ u32le 16 ++ u16le 1 ++ u16le ch ++ u32le rate ++
  u32le (rate * ch * 2) ++ u16le (ch * 2) ++ u16le 16 ++
  asciiBytes "data" ++ u32le m

/-- The spec's header for a given buffer. -/
def wavHeaderSpec (b : AudioBuffer) : List ℕ :=
  wavHeader (b.length * b.numberOfChannels * 2) b.numberOfChannels b.sampleRate

/-- The interleaved (frame-major) 16-bit integer samples of a buffer: each
float clamped to [-1, 1], scaled by 32767, truncated toward zero. -/
def sampleInts (b : AudioBuffer) : List ℤ :=
  (List.range b.length).flatMap (fun i =>
    (List.range b.numberOfChannels).map (fun channel =>
      truncQ (max (-1) (min 1 ((b.getChannelData channel).getD i 0)) * 32767)))

/-- Modelled from the spec (§4.5): the data chunk — frame-major interleaved
16-bit samples, each float clamped to [-1, 1], scaled by 32767, truncated
toward zero. -/
def wavDataSpec (b : AudioBuffer) : List ℕ :=
  (List.range b.length).flatMap (fun i =>
    (List.range b.numberOfChannels).flatMap (fun channel =>
      i16le (truncQ (max (-1) (min 1 ((b.getChannelData channel).getD i 0)) * 32767))))

/-- Embeds `AudioMixer.getAvailableTrackIndex` (part_005 lines 267-277):
first index in `[0, maxTracks)` whose lane is unused (`trackIndex || 0`
maps a missing index to 0), else the fallback 0. -/
def getAvailableTrackIndex (maxTracks : ℕ) (audioTracks : List AudioClip) : ℕ :=
  let usedTracks := audioTracks.map (fun t => t.trackIndex.getD 0)
  match (List.range maxTracks).find? (fun i => !(usedTracks.contains i)) with
  | some i => i
  | none => 0

/-- Embeds `AudioMixer.splitTrack` (part_005 lines 562-588). `Date.now()` is
modelled by the `now` parameter; both halves receive fresh stringified ids.
`splice(index, 1, firstHalf, secondHalf)` replaces the found element;
`findIndex` misses (-1) make `splice(-1, 1, ...)` replace the last element. -/
def splitTrack (now : ℕ) (maxTracks : ℕ) (audioTracks : List AudioClip)
    (track : AudioClip) : List AudioClip :=
  let splitPoint := track.startTime + track.duration / 2
  let firstHalf : AudioClip :=
    { track with
      id := toString now
      filename := track.filename ++ " (Part 1)"
      endTime := splitPoint
      duration := splitPoint - track.startTime }
  let newTrackIndex := getAvailableTrackIndex maxTracks audioTracks
  let secondHalf : AudioClip :=
    { track with
      id := toString (now + 1)
      filename := track.filename ++ " (Part 2)"
      startTime := splitPoint
      duration := track.endTime - splitPoint
      trackIndex := some newTrackIndex }
  match audioTracks.findIdx? (fun t => t.id == track.id) with
  | some index =>
    audioTracks.take index ++ [firstHalf, secondHalf] ++ audioTracks.drop (index + 1)
  | none =>
    audioTracks.take (audioTracks.length - 1) ++ [firstHalf, secondHalf]

/-- Embeds the horizontal part of `AudioMixer.updateScrollLimits` (part_005
lines 735-745): with no tracks `timelineWidth` is untouched, otherwise it
becomes `max(300, maxEndTime + 30)`. -/
def updateTimelineWidth (audioTracks : List AudioClip) (timelineWidth : ℚ) : ℚ :=
  if audioTracks.isEmpty then timelineWidth
  else max 300 (listMaxQ (audioTracks.map (·.endTime)) + 30)

/-- Embeds `AudioVideoSync.getAudioVisualizationData` (AudioVideoSync.ts
lines 307-325): channel 0 is cut into `width` windows of
`floor(length/width)` samples; the inner `for` loop over
`j ∈ [start, start+spp)` with guard `j < channelData.length` (monotone, so
the early exit equals a filter) emits the running max of `|sample|`. -/
def getAudioVisualizationData (audioBuffer : AudioBuffer) (width : ℕ) : List ℚ :=
  let channelData := audioBuffer.getChannelData 0
  let samplesPerPixel := channelData.length / width
  (List.range width).foldl (fun acc i =>
    let start := i * samplesPerPixel
    let mx := (List.range' start samplesPerPixel).foldl (fun m j =>
      if j < channelData.length then max m |channelData.getD j 0| else m) 0
    acc ++ [mx]) []

/-! ## Concrete sample data used by counterexamples and witnesses -/

/-- A clip whose placement window ([0,10], length 10) differs from its
intrinsic duration (4). -/
def demoClip : AudioClip :=
  { id := "a", filename := "x", duration := 4, startTime := 0, endTime := 10,
    volume := 1, trackIndex := some 0 }

/-- A clip ending at t = 400 s. -/
def clip400 : AudioClip := { demoClip with id := "c", endTime := 400 }

/-- A mono buffer whose peak (1/2) is below the 0.95 headroom threshold. -/
def quietBuf : AudioBuffer := { sampleRate := 1, chans := [[1/2, -1/4]] }

/-- Settings with both fades disabled. -/
def zeroFadeSettings : AudioVideoSyncSettings :=
  { audioFadeIn := 0, audioFadeOut := 0, videoStartOffset := 0, audioStartOffset := 0 }

/-- A 5-sample constant-1/2 mono source at 1 Hz. -/
def srcBufA : AudioBuffer :=
  { sampleRate := 1, chans := [[1/2, 1/2, 1/2, 1/2, 1/2]] }

/-- A 1-sample silent mono source at 1 Hz. -/
def srcBufB : AudioBuffer := { sampleRate := 1, chans := [[0]] }

/-- Clip A: placement window [0, 1] (1 sample at 1 Hz), 5-sample source. -/
def clipA : AudioClip :=
  { id := "A", filename := "a.wav", duration := 100, startTime := 0, endTime := 1,
    volume := 1, trackIndex := some 0 }

/-- Clip B: placement window [0, 10], silent 1-sample source. -/
def clipB : AudioClip :=
  { id := "B", filename := "b.wav", duration := 100, startTime := 0, endTime := 10,
    volume := 1, trackIndex := some 1 }

/-- Clip A prepared for mixing. -/
def syncedA : SyncedAudioTrack :=
  { audioClip := clipA, audioBuffer := srcBufA, startTime := 0, endTime := 1, volume := 1 }

/-- Clip B prepared for mixing. -/
def syncedB : SyncedAudioTrack :=
  { audioClip := clipB, audioBuffer := srcBufB, startTime := 0, endTime := 10, volume := 1 }

/-- Default element for `List.getD` over clips. -/
def defaultClip : AudioClip :=
  { id := "", filename := "", duration := 0, startTime := 0, endTime := 0,
    volume := 0, trackIndex := none }

/-- A 3-sample mono buffer for the visualization witness. -/
def vizBuf : AudioBuffer := { sampleRate := 1, chans := [[1, -2, 3]] }

/-! ## Shared fold lemmas -/

lemma le_foldl_step {α : Type} {f : ℚ → α → ℚ} (hstep : ∀ a x, a ≤ f a x) :
    ∀ (l : List α) (a : ℚ), a ≤ l.foldl f a
  | [], a => le_refl a
  | x :: l, a => le_trans (hstep a x) (le_foldl_step hstep l (f a x))

lemma le_foldl_of_mem {α : Type} {f : ℚ → α → ℚ} (hstep : ∀ a x, a ≤ f a x)
    {c : ℚ} {x : α} (hc : ∀ a, c ≤ f a x) :
    ∀ {l : List α}, x ∈ l → ∀ a, c ≤ l.foldl f a := by
  intro l
  induction l with
  | nil => intro h; cases h
  | cons y l ih =>
    intro hx a
    rcases List.mem_cons.mp hx with rfl | hx'
    · exact le_trans (hc a) (le_foldl_step hstep l (f a x))
    · exact ih hx' (f a y)

lemma foldl_max_choice : ∀ (l : List ℚ) (a : ℚ), l.foldl max a = a ∨ l.foldl max a ∈ l := by
  intro l
  induction l with
  | nil => intro a; exact Or.inl rfl
  | cons x l ih =>
    intro a
    rw [List.foldl_cons]
    rcases ih (max a x) with h | h
    · rw [h]
      rcases max_choice a x with h' | h'
      · exact Or.inl h'
      · exact Or.inr (by rw [h']; exact List.mem_cons_self x l)
    · exact Or.inr (List.mem_cons_of_mem _ h)

lemma le_listMaxQ {x : ℚ} : ∀ {l : List ℚ}, x ∈ l → x ≤ listMaxQ l := by
  intro l hx
  cases l with
  | nil => cases hx
  | cons y ys =>
    rcases List.mem_cons.mp hx with rfl | hx'
    · exact le_foldl_step (fun a b => le_max_left a b) ys x
    · exact le_foldl_of_mem (fun a b => le_max_left a b)
        (fun a => le_max_right a x) hx' y

lemma listMaxQ_mem : ∀ {l : List ℚ}, l ≠ [] → listMaxQ l ∈ l := by
  intro l hl
  cases l with
  | nil => exact absurd rfl hl
  | cons y ys =>
    show ys.foldl max y ∈ y :: ys
    rcases foldl_max_choice ys y with h | h
    · rw [h]; exact List.mem_cons_self y ys
    · exact List.mem_cons_of_mem _ h

lemma listMaxQ_perm {l l' : List ℚ} (h : l.Perm l') : listMaxQ l = listMaxQ l' := by
  cases l with
  | nil =>
    have : l' = [] := (h.nil_eq).symm
    rw [this]
  | cons y ys =>
    have hne : (y :: ys : List ℚ) ≠ [] := by simp
    have hne' : l' ≠ [] := by
      intro hq
      rw [hq] at h
      exact hne h.eq_nil
    apply le_antisymm
    · exact le_listMaxQ (h.mem_iff.mp (listMaxQ_mem hne))
    · exact le_listMaxQ (h.mem_iff.mpr (listMaxQ_mem hne'))

/-! ## C2 — fade envelope -/

/-- C2 counterexample: the claim says the plateau gain of a clip with
`gain > 1` is `clip.gain` itself (clamp `[0,1] * clip.gain`); the code
clamps to the absolute interval `[0, 1]`, so a clip with gain 2 at a
plateau instant (t = 5, intrinsic duration 100, default 0.5s fades) gets
gain 1, not 2. -/
theorem calculateVolumeAtTime_gain_above_one :
    calculateVolumeAtTime getDefaultSettings 5 100 2 = 1 ∧
    calculateVolumeAtTime getDefaultSettings 5 100 2 ≠ 2 := by
  constructor <;> norm_num [calculateVolumeAtTime, getDefaultSettings]

/-- C2 amended: for clips with `0 ≤ gain ≤ 1` and non-overlapping fade
regions the claimed piecewise envelope holds (fade-in ramp, fade-out ramp
clamped at 0, plateau equal to `clip.gain`), and the result always lies in
`[0, clip.gain]`; the clamp applied by the code is the absolute interval
`[0, 1]`, so for `gain > 1` the plateau saturates at 1 instead of
`clip.gain` (see the counterexample). -/
theorem calculateVolumeAtTime_spec (s : AudioVideoSyncSettings) (t D g : ℚ)
    (ht : 0 ≤ t) (hg0 : 0 ≤ g) (hg1 : g ≤ 1)
    (hfi : 0 < s.audioFadeIn) (hfo : 0 < s.audioFadeOut)
    (hsep : s.audioFadeIn + s.audioFadeOut ≤ D) :
    (t < s.audioFadeIn →
      calculateVolumeAtTime s t D g = g * (t / s.audioFadeIn)) ∧
    (D - s.audioFadeOut < t →
      calculateVolumeAtTime s t D g =
        max 0 (g * (1 - (t - (D - s.audioFadeOut)) / s.audioFadeOut))) ∧
    (s.audioFadeIn ≤ t → t ≤ D - s.audioFadeOut →
      calculateVolumeAtTime s t D g = g) ∧
    0 ≤ calculateVolumeAtTime s t D g ∧
    calculateVolumeAtTime s t D g ≤ g := by
  have hin_le : s.audioFadeIn ≤ D - s.audioFadeOut := by linarith
  refine ⟨?_, ?_, ?_, ?_, ?_⟩
  · intro hlt
    have hnot : ¬ t > D - s.audioFadeOut := by push_neg; linarith
    have hfrac0 : 0 ≤ t / s.audioFadeIn := div_nonneg ht hfi.le
    have hfrac1 : t / s.audioFadeIn ≤ 1 := by
      rw [div_le_one hfi]; exact hlt.le
    have hv0 : 0 ≤ g * (t / s.audioFadeIn) := mul_nonneg hg0 hfrac0
    have hv1 : g * (t / s.audioFadeIn) ≤ 1 :=
      mul_le_one₀ hg1 hfrac0 hfrac1
    simp only [calculateVolumeAtTime, if_pos hlt, if_neg hnot]
    rw [min_eq_right hv1, max_eq_right hv0]
  · intro hgt
    have hnot : ¬ t < s.audioFadeIn := by push_neg; linarith
    have hprog : 0 ≤ (t - (D - s.audioFadeOut)) / s.audioFadeOut :=
      div_nonneg (by linarith) hfo.le
    have hfac : g * (1 - (t - (D - s.audioFadeOut)) / s.audioFadeOut) ≤ 1 := by
      have : 1 - (t - (D - s.audioFadeOut)) / s.audioFadeOut ≤ 1 := by linarith
      calc g * (1 - (t - (D - s.audioFadeOut)) / s.audioFadeOut)
          ≤ g * 1 := by
            rcases le_or_lt (1 - (t - (D - s.audioFadeOut)) / s.audioFadeOut) 0 with h0 | h0
            · nlinarith
            · exact mul_le_mul_of_nonneg_left this hg0
        _ ≤ 1 := by linarith
    simp only [calculateVolumeAtTime, if_neg hnot, if_pos hgt]
    rw [min_eq_right hfac]
  · intro h1 h2
    have hn1 : ¬ t < s.audioFadeIn := by push_neg; exact h1
    have hn2 : ¬ t > D - s.audioFadeOut := by push_neg; exact h2
    simp only [calculateVolumeAtTime, if_neg hn1, if_neg hn2]
    rw [min_eq_right hg1, max_eq_right hg0]
  · simp only [calculateVolumeAtTime]
    exact le_max_left 0 _
  · simp only [calculateVolumeAtTime]
    rcases lt_or_le t s.audioFadeIn with hlt | hge
    · have hnot : ¬ t > D - s.audioFadeOut := by push_neg; linarith
      simp only [if_pos hlt, if_neg hnot]
      have hfrac0 : 0 ≤ t / s.audioFadeIn := div_nonneg ht hfi.le
      have hfrac1 : t / s.audioFadeIn ≤ 1 := by
        rw [div_le_one hfi]; exact hlt.le
      have : g * (t / s.audioFadeIn) ≤ g := by nlinarith
      rcases le_or_lt (g * (t / s.audioFadeIn)) 1 with h1 | h1
      · rw [min_eq_right h1]
        exact max_le hg0 this
      · rw [min_eq_left h1.le]
        exact max_le hg0 (by linarith)
    · simp only [if_neg (not_lt.mpr hge)]
      rcases lt_or_le (D - s.audioFadeOut) t with hgt | hle
      · simp only [if_pos hgt]
        have hprog : 0 ≤ (t - (D - s.audioFadeOut)) / s.audioFadeOut :=
          div_nonneg (by linarith) hfo.le
        have : g * (1 - (t - (D - s.audioFadeOut)) / s.audioFadeOut) ≤ g := by nlinarith
        rcases le_or_lt (g * (1 - (t - (D - s.audioFadeOut)) / s.audioFadeOut)) 1 with h1 | h1
        · rw [min_eq_right h1]
          exact max_le hg0 this
        · rw [min_eq_left h1.le]
          exact max_le hg0 (by linarith)
      · simp only [if_neg (not_lt.mpr hle)]
        rw [min_eq_right hg1]
        exact max_le hg0 le_rfl

/-- C2 witness: the amended envelope theorem at t = 1/4, D = 100,
gain = 1/2, default 0.5 s fades. -/
theorem calculateVolumeAtTime_spec_witness :
    0 ≤ calculateVolumeAtTime getDefaultSettings (1/4) 100 (1/2) ∧
    calculateVolumeAtTime getDefaultSettings (1/4) 100 (1/2) ≤ 1/2 :=
  (calculateVolumeAtTime_spec getDefaultSettings (1/4) 100 (1/2)
    (by norm_num) (by norm_num) (by norm_num)
    (by norm_num [getDefaultSettings]) (by norm_num [getDefaultSettings])
    (by norm_num [getDefaultSettings])).2.2.2

/-! ## C3 — headroom normalization -/

lemma le_foldl_maxabs (l : List ℚ) (a : ℚ) :
    a ≤ l.foldl (fun m s => max m |s|) a :=
  le_foldl_step (fun a2 x => le_max_left a2 |x|) l a

lemma mem_le_foldl_maxabs {s : ℚ} {l : List ℚ} (hs : s ∈ l) (a : ℚ) :
    |s| ≤ l.foldl (fun m s => max m |s|) a :=
  le_foldl_of_mem (fun a2 x => le_max_left a2 |x|)
    (fun a2 => le_max_right a2 |s|) hs a

lemma bufferPeak_nonneg (b : AudioBuffer) : 0 ≤ bufferPeak b := by
  unfold bufferPeak
  exact le_foldl_step (fun a ch => le_foldl_maxabs ch a) b.chans 0

lemma abs_le_bufferPeak {b : AudioBuffer} {ch : List ℚ} {s : ℚ}
    (hch : ch ∈ b.chans) (hs : s ∈ ch) : |s| ≤ bufferPeak b := by
  unfold bufferPeak
  exact le_foldl_of_mem (fun a c => le_foldl_maxabs c a)
    (fun a => mem_le_foldl_maxabs hs a) hch 0

/-- C3: after summation, if the peak over both channels exceeds 0.95 every
sample is rescaled by exactly `0.95 / peak` and every resulting sample has
absolute value at most 0.95; if the peak is at most 0.95 the buffer is
returned unchanged. -/
theorem normalizeAudioBuffer_spec (b : AudioBuffer) :
    (bufferPeak b ≤ 19/20 → normalizeAudioBuffer b = b) ∧
    (19/20 < bufferPeak b →
      (normalizeAudioBuffer b).chans =
        b.chans.map (fun ch => ch.map (· * ((19/20) / bufferPeak b))) ∧
      ∀ ch ∈ (normalizeAudioBuffer b).chans, ∀ s ∈ ch, |s| ≤ 19/20) := by
  constructor
  · intro h
    simp only [normalizeAudioBuffer, if_neg (not_lt.mpr h)]
  · intro h
    have hpos : (0:ℚ) < bufferPeak b := lt_trans (by norm_num) h
    constructor
    · simp only [normalizeAudioBuffer, if_pos h]
    · intro ch hch s hs
      simp only [normalizeAudioBuffer, if_pos h, List.mem_map] at hch
      obtain ⟨ch0, hch0, rfl⟩ := hch
      rw [List.mem_map] at hs
      obtain ⟨s0, hs0, rfl⟩ := hs
      have hfac : (0:ℚ) ≤ (19/20) / bufferPeak b :=
        div_nonneg (by norm_num) hpos.le
      have habs : |s0 * ((19/20) / bufferPeak b)| =
          |s0| * ((19/20) / bufferPeak b) := by
        rw [abs_mul, abs_of_nonneg hfac]
      rw [habs]
      calc |s0| * ((19/20) / bufferPeak b)
          ≤ bufferPeak b * ((19/20) / bufferPeak b) :=
            mul_le_mul_of_nonneg_right (abs_le_bufferPeak hch0 hs0) hfac
        _ = 19/20 := by
            field_simp
            ring

/-- C3 witness: a buffer with peak 1/2 ≤ 0.95 is returned unchanged. -/
theorem normalizeAudioBuffer_spec_witness :
    normalizeAudioBuffer quietBuf = quietBuf :=
  (normalizeAudioBuffer_spec quietBuf).1 (by
    norm_num [bufferPeak, quietBuf, List.foldl, abs])

/-! ## C7 — track allocator -/

lemma find?_range_some {p : ℕ → Bool} {m a : ℕ}
    (h : (List.range m).find? p = some a) :
    a < m ∧ p a = true ∧ ∀ b < a, p b = false := by
  induction m with
  | zero => simp [List.range_zero] at h
  | succ m ih =>
    rw [List.range_succ, List.find?_append] at h
    cases hfm : (List.range m).find? p with
    | some c =>
      rw [hfm] at h
      simp only [Option.or_some, Option.some.injEq] at h
      subst h
      exact ⟨Nat.lt_succ_of_lt (ih hfm).1, (ih hfm).2.1, (ih hfm).2.2⟩
    | none =>
      rw [hfm] at h
      simp only [Option.none_or] at h
      have hall : ∀ b < m, p b = false := by
        intro b hb
        have := List.find?_eq_none.mp hfm b (List.mem_range.mpr hb)
        simpa using this
      cases hp : p m with
      | true =>
        rw [List.find?_cons, hp] at h
        simp only [if_pos rfl, Option.some.injEq] at h
        subst h
        exact ⟨Nat.lt_succ_self m, hp, hall⟩
      | false =>
        rw [List.find?_cons, hp] at h
        simp at h

/-- Unfolding equation for `getAvailableTrackIndex`. -/
lemma getAvailableTrackIndex_eq (maxTracks : ℕ) (audioTracks : List AudioClip) :
    getAvailableTrackIndex maxTracks audioTracks =
      match (List.range maxTracks).find?
        (fun i => !((audioTracks.map (fun t => t.trackIndex.getD 0)).contains i)) with
      | some i => i
      | none => 0 := rfl

/-- C7: the allocator returns an index below `maxTracks` (the source fixes
`maxTracks = 12 > 0`); when a free lane below `maxTracks` exists, the
returned lane is free and every smaller lane is occupied (lowest-free); when
every lane is occupied it falls back to 0. -/
theorem getAvailableTrackIndex_spec (maxTracks : ℕ) (audioTracks : List AudioClip)
    (hm : 0 < maxTracks) :
    getAvailableTrackIndex maxTracks audioTracks < maxTracks ∧
    ((∃ i, i < maxTracks ∧
        i ∉ audioTracks.map (fun t => t.trackIndex.getD 0)) →
      getAvailableTrackIndex maxTracks audioTracks ∉
        audioTracks.map (fun t => t.trackIndex.getD 0) ∧
      ∀ j < getAvailableTrackIndex maxTracks audioTracks,
        j ∈ audioTracks.map (fun t => t.trackIndex.getD 0)) ∧
    ((∀ i < maxTracks, i ∈ audioTracks.map (fun t => t.trackIndex.getD 0)) →
      getAvailableTrackIndex maxTracks audioTracks = 0) := by
  rw [getAvailableTrackIndex_eq]
  cases hf : (List.range maxTracks).find?
      (fun i => !((audioTracks.map (fun t => t.trackIndex.getD 0)).contains i)) with
  | some a =>
    obtain ⟨ham, hpa, hlow⟩ := find?_range_some hf
    refine ⟨ham, fun _ => ⟨?_, ?_⟩, fun hall => ?_⟩
    · intro hmem
      simp only [Bool.not_eq_true', List.contains, List.elem_eq_mem, decide_eq_false_iff_not] at hpa
      exact hpa hmem
    · intro j hj
      have := hlow j hj
      simpa using this
    · exfalso
      simp only [Bool.not_eq_true', List.contains, List.elem_eq_mem, decide_eq_false_iff_not] at hpa
      exact hpa (hall a ham)
  | none =>
    refine ⟨hm, fun hex => ?_, fun _ => rfl⟩
    exfalso
    obtain ⟨i, him, hfree⟩ := hex
    have := List.find?_eq_none.mp hf i (List.mem_range.mpr him)
    simp only [Bool.not_eq_true', List.contains, List.elem_eq_mem, decide_eq_false_iff_not,
      Decidable.not_not] at this
    exact hfree this

/-- C7 witness: with lanes {0, 2} occupied and `maxTracks = 4` the allocator
returns 1, which is below 4, free, and the lowest free lane. -/
theorem getAvailableTrackIndex_spec_witness :
    getAvailableTrackIndex 4
      [{ demoClip with trackIndex := some 0 },
       { demoClip with trackIndex := some 2 }] = 1 ∧
    getAvailableTrackIndex 4
      [{ demoClip with trackIndex := some 0 },
       { demoClip with trackIndex := some 2 }] < 4 :=
  ⟨by decide,
   (getAvailableTrackIndex_spec 4
      [{ demoClip with trackIndex := some 0 },
       { demoClip with trackIndex := some 2 }] (by decide)).1⟩

/-! ## C9 — derived timeline duration -/

/-- C9 counterexample: with a single clip ending at t = 400 the code derives
a timeline duration of max(300, 400 + 30) = 430, while the claim
(max of the floor and the latest end time, "no additional padding") predicts
max(300, 400) = 400. -/
theorem updateTimelineWidth_padding :
    updateTimelineWidth [clip400] 300 = 430 ∧
    updateTimelineWidth [clip400] 300 ≠ max 300 clip400.endTime := by
  constructor <;>
    norm_num [updateTimelineWidth, listMaxQ, clip400, demoClip]

/-- C9 amended: for a non-empty timeline the derived duration is
`max(300, (max over clips of endTime) + 30)`: it is at least the 300 s
floor, at least 30 s past every clip's end (the padding the original claim
omitted), and is attained either by the floor or by some clip's
`endTime + 30`. -/
theorem updateTimelineWidth_spec (audioTracks : List AudioClip) (w : ℚ)
    (hne : audioTracks ≠ []) :
    (300 : ℚ) ≤ updateTimelineWidth audioTracks w ∧
    (∀ t ∈ audioTracks, t.endTime + 30 ≤ updateTimelineWidth audioTracks w) ∧
    (updateTimelineWidth audioTracks w = 300 ∨
      ∃ t ∈ audioTracks, updateTimelineWidth audioTracks w = t.endTime + 30) := by
  have hi : audioTracks.isEmpty = false := by
    cases audioTracks with
    | nil => exact absurd rfl hne
    | cons a l => rfl
  unfold updateTimelineWidth
  rw [hi]
  simp only [Bool.false_eq_true, if_false]
  refine ⟨le_max_left _ _, ?_, ?_⟩
  · intro t ht
    have hle : t.endTime ≤ listMaxQ (audioTracks.map (·.endTime)) :=
      le_listMaxQ (List.mem_map_of_mem _ ht)
    have : listMaxQ (audioTracks.map (·.endTime)) + 30 ≤
        max 300 (listMaxQ (audioTracks.map (·.endTime)) + 30) :=
      le_max_right _ _
    linarith
  · have hmapne : audioTracks.map (·.endTime) ≠ [] := by
      cases audioTracks with
      | nil => exact absurd rfl hne
      | cons a l => simp
    have hmem := listMaxQ_mem hmapne
    rcases max_choice 300 (listMaxQ (audioTracks.map (·.endTime)) + 30) with h | h
    · exact Or.inl h
    · right
      obtain ⟨t, ht, hte⟩ := List.mem_map.mp hmem
      exact ⟨t, ht, by rw [h, hte]⟩

/-- C9 witness: the amended duration theorem at the single-clip timeline
ending at t = 400. -/
theorem updateTimelineWidth_spec_witness :
    (300 : ℚ) ≤ updateTimelineWidth [clip400] 300 :=
  (updateTimelineWidth_spec [clip400] 300 (List.cons_ne_nil _ _)).1

/-! ## C6 — splitting a clip -/

/-- C6 counterexample: splitting `demoClip` (placement window [0, 10],
intrinsic duration 4) at `Date.now() = 5`: the first half carries the fresh
id "5", not the original id "a", and its end time is
`startTime + duration/2 = 2`, not the window midpoint
`startTime + (endTime - startTime)/2 = 5`. -/
theorem splitTrack_not_as_claimed :
    ((splitTrack 5 12 [demoClip] demoClip).headD defaultClip).id ≠ demoClip.id ∧
    ((splitTrack 5 12 [demoClip] demoClip).headD defaultClip).endTime ≠
      demoClip.startTime + (demoClip.endTime - demoClip.startTime) / 2 := by
  constructor
  · decide
  · norm_num [splitTrack, getAvailableTrackIndex, demoClip, defaultClip]

/-- C6 amended: `splitTrack` splits at `startTime + duration/2` — the
midpoint by *intrinsic* duration, which coincides with the window midpoint
only when the window length equals the intrinsic duration. The original
clip is replaced in place by two halves: the first keeps the original track
index, start time and window start but receives a fresh id (`now`), so the
original id refers to nothing after the split; the second receives another
fresh id (`now + 1`), a newly allocated track, the split point as start
time and the original end time. Clips before and after the replaced
position are untouched. -/
theorem splitTrack_spec (now maxTracks : ℕ) (ts : List AudioClip)
    (tr : AudioClip) (i : ℕ)
    (hfind : ts.findIdx? (fun t => t.id == tr.id) = some i)
    (hi : i < ts.length) :
    (splitTrack now maxTracks ts tr).length = ts.length + 1 ∧
    ((splitTrack now maxTracks ts tr).getD i defaultClip).id = toString now ∧
    ((splitTrack now maxTracks ts tr).getD i defaultClip).startTime = tr.startTime ∧
    ((splitTrack now maxTracks ts tr).getD i defaultClip).endTime =
      tr.startTime + tr.duration / 2 ∧
    ((splitTrack now maxTracks ts tr).getD i defaultClip).trackIndex = tr.trackIndex ∧
    ((splitTrack now maxTracks ts tr).getD (i+1) defaultClip).id = toString (now + 1) ∧
    ((splitTrack now maxTracks ts tr).getD (i+1) defaultClip).startTime =
      tr.startTime + tr.duration / 2 ∧
    ((splitTrack now maxTracks ts tr).getD (i+1) defaultClip).endTime = tr.endTime ∧
    ((splitTrack now maxTracks ts tr).getD (i+1) defaultClip).trackIndex =
      some (getAvailableTrackIndex maxTracks ts) ∧
    (∀ j, j < i → (splitTrack now maxTracks ts tr).getD j defaultClip =
      ts.getD j defaultClip) ∧
    (∀ j, i + 1 < j → j < ts.length + 1 →
      (splitTrack now maxTracks ts tr).getD j defaultClip =
        ts.getD (j - 1) defaultClip) := by
  have htake : (ts.take i).length = i := by
    rw [List.length_take]
    omega
  have hres : splitTrack now maxTracks ts tr =
      ts.take i ++
        ([{ tr with
              id := toString now
              filename := tr.filename ++ " (Part 1)"
              endTime := tr.startTime + tr.duration / 2
              duration := tr.startTime + tr.duration / 2 - tr.startTime },
           { tr with
              id := toString (now + 1)
              filename := tr.filename ++ " (Part 2)"
              startTime := tr.startTime + tr.duration / 2
              duration := tr.endTime - (tr.startTime + tr.duration / 2)
              trackIndex := some (getAvailableTrackIndex maxTracks ts) }] ++
          ts.drop (i + 1)) := by
    unfold splitTrack
    rw [hfind]
    simp only [List.append_assoc]
  rw [hres]
  refine ⟨?_, ?_, ?_, ?_, ?_, ?_, ?_, ?_, ?_, ?_, ?_⟩
  · simp only [List.length_append, htake, List.length_cons, List.length_drop,
      List.length_nil]
    omega
  · rw [List.getD_eq_getElem?_getD,
      List.getElem?_append_right (le_of_eq htake), htake, Nat.sub_self]
    simp
  · rw [List.getD_eq_getElem?_getD,
      List.getElem?_append_right (le_of_eq htake), htake, Nat.sub_self]
    simp
  · rw [List.getD_eq_getElem?_getD,
      List.getElem?_append_right (le_of_eq htake), htake, Nat.sub_self]
    simp
  · rw [List.getD_eq_getElem?_getD,
      List.getElem?_append_right (le_of_eq htake), htake, Nat.sub_self]
    simp
  · rw [List.getD_eq_getElem?_getD,
      List.getElem?_append_right (by rw [htake]; exact Nat.le_succ i), htake,
      Nat.succ_sub (le_refl i), Nat.sub_self]
    simp
  · rw [List.getD_eq_getElem?_getD,
      List.getElem?_append_right (by rw [htake]; exact Nat.le_succ i), htake,
      Nat.succ_sub (le_refl i), Nat.sub_self]
    simp
  · rw [List.getD_eq_getElem?_getD,
      List.getElem?_append_right (by rw [htake]; exact Nat.le_succ i), htake,
      Nat.succ_sub (le_refl i), Nat.sub_self]
    simp
  · rw [List.getD_eq_getElem?_getD,
      List.getElem?_append_right (by rw [htake]; exact Nat.le_succ i), htake,
      Nat.succ_sub (le_refl i), Nat.sub_self]
    simp
  · intro j hj
    rw [List.getD_eq_getElem?_getD, List.getD_eq_getElem?_getD,
      List.getElem?_append_left (by rw [htake]; exact hj),
      List.getElem?_take_of_lt hj]
  · intro j hj1 hj2
    rw [List.getD_eq_getElem?_getD, List.getD_eq_getElem?_getD,
      List.getElem?_append_right (by rw [htake]; omega), htake]
    have h2 : 2 ≤ j - i := by omega
    rw [List.getElem?_append_right (by simpa using h2)]
    simp only [List.length_cons, List.length_nil, List.getElem?_drop]
    have hidx : i + 1 + (j - i - (0 + 1 + 1)) = j - 1 := by omega
    rw [hidx]

/-- C6 witness: the amended split theorem at the concrete one-clip timeline. -/
theorem splitTrack_spec_witness :
    (splitTrack 5 12 [demoClip] demoClip).length = 2 :=
  (splitTrack_spec 5 12 [demoClip] demoClip 0 (by decide) (by decide)).1

/-! ## C8 — empty-input failure and per-clip skipping -/

lemma prepareAudioTracks_acc (s : AudioVideoSyncSettings)
    (decode : AudioClip → Option AudioBuffer) :
    ∀ (l : List AudioClip) (acc : List SyncedAudioTrack),
      l.foldl (fun syncedTracks audioClip =>
        match decode audioClip with
        | some processedBuffer =>
          syncedTracks ++ [{ audioClip := audioClip
                             audioBuffer := processedBuffer
                             startTime := audioClip.startTime + s.audioStartOffset
                             endTime := audioClip.endTime + s.audioStartOffset
                             volume := audioClip.volume }]
        | none => syncedTracks) acc =
      acc ++ prepareAudioTracks s decode l := by
  intro l
  induction l with
  | nil =>
    intro acc
    simp [prepareAudioTracks]
  | cons c cs ih =>
    intro acc
    rw [List.foldl_cons]
    unfold prepareAudioTracks
    rw [List.foldl_cons, ih, ih]
    cases hdc : decode c <;> simp

lemma prepareAudioTracks_eq_nil_iff (s : AudioVideoSyncSettings)
    (decode : AudioClip → Option AudioBuffer) (clips : List AudioClip) :
    prepareAudioTracks s decode clips = [] ↔ ∀ c ∈ clips, decode c = none := by
  induction clips with
  | nil => simp [prepareAudioTracks]
  | cons c cs ih =>
    unfold prepareAudioTracks
    rw [List.foldl_cons, prepareAudioTracks_acc]
    cases hdc : decode c with
    | some b => simp [hdc]
    | none =>
      simp only [List.nil_append]
      rw [show (∀ x ∈ c :: cs, decode x = none) ↔ ∀ x ∈ cs, decode x = none by
        simp [hdc]]
      exact ih

/-- C8: the mix fails with the empty-input error exactly when no clip's
source decoded — zero clips, or every decode failing; a clip whose decode
fails is merely skipped by `prepareAudioTracks`, and whenever at least one
clip decodes the mix completes with a buffer. -/
theorem mixAudioTracks_error_iff (s : AudioVideoSyncSettings)
    (decode : AudioClip → Option AudioBuffer) (clips : List AudioClip) :
    (mixAudioTracks s (prepareAudioTracks s decode clips) =
        .error "No audio tracks to mix" ↔ ∀ c ∈ clips, decode c = none) ∧
    ((∃ c ∈ clips, (decode c).isSome) →
      ∃ buf, mixAudioTracks s (prepareAudioTracks s decode clips) = .ok buf) := by
  have herr : ∀ (l : List SyncedAudioTrack),
      mixAudioTracks s l = .error "No audio tracks to mix" ↔ l = [] := by
    intro l
    cases l with
    | nil => simp [mixAudioTracks]
    | cons t ts => simp [mixAudioTracks]
  constructor
  · rw [herr, prepareAudioTracks_eq_nil_iff]
  · intro hex
    have hne : prepareAudioTracks s decode clips ≠ [] := by
      rw [Ne, prepareAudioTracks_eq_nil_iff]
      push_neg
      obtain ⟨c, hc, hs⟩ := hex
      refine ⟨c, hc, fun h => ?_⟩
      rw [h] at hs
      simp at hs
    cases hp : prepareAudioTracks s decode clips with
    | nil => exact absurd hp hne
    | cons t ts => exact ⟨_, rfl⟩

/-- C8 witness: with a single clip whose source always fails to decode, the
mix surfaces the empty-input error. -/
theorem mixAudioTracks_error_iff_witness :
    mixAudioTracks getDefaultSettings
      (prepareAudioTracks getDefaultSettings (fun _ => none) [demoClip]) =
      .error "No audio tracks to mix" :=
  (mixAudioTracks_error_iff getDefaultSettings (fun _ => none) [demoClip]).1.mpr
    (fun _ _ => rfl)

/-! ## C10 — visualization reducer -/

lemma foldl_push_map {α β : Type} (g : α → β) :
    ∀ (l : List α) (init : List β),
      l.foldl (fun acc i => acc ++ [g i]) init = init ++ l.map g := by
  intro l
  induction l with
  | nil => intro init; simp
  | cons x xs ih =>
    intro init
    rw [List.foldl_cons, ih, List.map_cons, List.append_assoc]
    rfl

lemma foldl_guard_max_cases (d : List ℚ) :
    ∀ (l : List ℕ) (m : ℚ),
      l.foldl (fun m2 j => if j < d.length then max m2 |d.getD j 0| else m2) m = m ∨
      ∃ j, j < d.length ∧
        l.foldl (fun m2 j => if j < d.length then max m2 |d.getD j 0| else m2) m =
          |d.getD j 0| := by
  intro l
  induction l with
  | nil => intro m; exact Or.inl rfl
  | cons k ks ih =>
    intro m
    rw [List.foldl_cons]
    by_cases hk : k < d.length
    · rw [if_pos hk]
      rcases ih (max m |d.getD k 0|) with h | h
      · rw [h]
        rcases max_choice m |d.getD k 0| with h' | h'
        · exact Or.inl h'
        · exact Or.inr ⟨k, hk, h'⟩
      · exact Or.inr h
    · rw [if_neg hk]
      exact ih m

/-- C10: for positive `width` the reducer emits exactly `width` values; when
channel 0 holds fewer than `width` samples the floor-divided window size is
0 and the result is `width` zeros rather than a failure; and every emitted
value is 0 or the absolute value of an actual in-bounds sample — the scan
never reads outside the channel. -/
theorem getAudioVisualizationData_spec (b : AudioBuffer) (width : ℕ)
    (_hw : 0 < width) :
    (getAudioVisualizationData b width).length = width ∧
    ((b.getChannelData 0).length < width →
      getAudioVisualizationData b width = List.replicate width 0) ∧
    (∀ x ∈ getAudioVisualizationData b width,
      x = 0 ∨ ∃ j, j < (b.getChannelData 0).length ∧
        x = |(b.getChannelData 0).getD j 0|) := by
  have hrw : getAudioVisualizationData b width =
      (List.range width).map (fun i =>
        (List.range' (i * ((b.getChannelData 0).length / width))
            ((b.getChannelData 0).length / width)).foldl
          (fun m2 j => if j < (b.getChannelData 0).length
            then max m2 |(b.getChannelData 0).getD j 0| else m2) 0) := by
    unfold getAudioVisualizationData
    rw [foldl_push_map
      (fun i => (List.range' (i * ((b.getChannelData 0).length / width))
          ((b.getChannelData 0).length / width)).foldl
        (fun m2 j => if j < (b.getChannelData 0).length
          then max m2 |(b.getChannelData 0).getD j 0| else m2) 0)
      (List.range width) []]
    rw [List.nil_append]
  refine ⟨?_, ?_, ?_⟩
  · rw [hrw, List.length_map, List.length_range]
  · intro hlt
    have hspp : (b.getChannelData 0).length / width = 0 := Nat.div_eq_of_lt hlt
    rw [hrw, hspp]
    simp [List.range'_zero, List.map_const, List.length_range]
  · intro x hx
    rw [hrw, List.mem_map] at hx
    obtain ⟨i, _, rfl⟩ := hx
    exact foldl_guard_max_cases (b.getChannelData 0) _ 0

/-- C10 witness: a 3-sample buffer rendered at width 5 yields five zeros. -/
theorem getAudioVisualizationData_spec_witness :
    (getAudioVisualizationData vizBuf 5).length = 5 ∧
    getAudioVisualizationData vizBuf 5 = List.replicate 5 0 :=
  ⟨(getAudioVisualizationData_spec vizBuf 5 (by decide)).1,
   (getAudioVisualizationData_spec vizBuf 5 (by decide)).2.1 (by decide)⟩

/-! ## C1 — the placement window does not truncate source reads -/

/-- C1: the claim (and the spec's step 2b) says at most
`min(len(source), ceil((endTime-startTime)*sampleRate))` samples are read
from each clip's source. Clip A has a 1-sample window ([0, 1] at 1 Hz,
second conjunct) and a 5-sample constant-1/2 source; clip B is silent and
only extends the master to 10 samples. Under the claim master index 4 can
only be 0, but the code keeps reading A's source past the window (the
`endSample` bound is computed on line 127 and never used) and leaves 1/2
there — the loop stops at the source end or the master end, not at the
clip's window. -/
theorem mixAudioTracks_reads_past_window :
    (match mixAudioTracks zeroFadeSettings [syncedA, syncedB] with
      | .ok buf => (buf.getChannelData 0).getD 4 0
      | .error _ => 0) = 1/2 ∧
    (⌈(syncedA.endTime - syncedA.startTime) *
        ((syncedA.audioBuffer.sampleRate : ℕ) : ℚ)⌉ = 1 ∧ (1:ℚ)/2 ≠ 0) := by
  refine ⟨?_, ?_, by norm_num⟩
  · have hr5 : List.range 5 = [0, 1, 2, 3, 4] := rfl
    have hr1 : List.range 1 = [0] := rfl
    have hrep : List.replicate (Int.toNat 10) (0:ℚ) =
        [0, 0, 0, 0, 0, 0, 0, 0, 0, 0] := rfl
    simp only [mixAudioTracks, listMaxQ, zeroFadeSettings, syncedA, syncedB,
      srcBufA, srcBufB, clipA, clipB, AudioBuffer.length,
      AudioBuffer.getChannelData, AudioBuffer.numberOfChannels, mixTrackInto,
      calculateVolumeAtTime, normalizeAudioBuffer, bufferPeak, List.map_cons,
      List.map_nil, List.foldl_cons, List.foldl_nil, List.headD, List.getD, hrep]
    norm_num
    simp only [hr5, hr1, List.foldl_cons, List.foldl_nil]
    have hrep5 : List.replicate 5 (0:ℚ) = [0, 0, 0, 0, 0] := rfl
    have habs2 : |(1:ℚ)/2| = 1/2 := by norm_num
    have habs0 : |(0:ℚ)| = 0 := by norm_num
    norm_num [List.set, List.getD, hrep5, habs2, habs0, List.foldl_cons,
      List.foldl_nil]
  · norm_num [syncedA, clipA, srcBufA]

/-! ## C4 — order independence of mixing

The imperative summation loop of `mixTrackInto` is characterized pointwise:
the value of master sample `j` after one track is the old value plus that
track's contribution, hence after all tracks it is the sum of the per-track
contributions, a permutation-invariant quantity in exact arithmetic. -/

/-- The left/right source channel selection of the mixing loop
(AudioVideoSync.ts lines 131-134). -/
def inputRightOf (t : SyncedAudioTrack) : List ℚ :=
  if 1 < t.audioBuffer.numberOfChannels then t.audioBuffer.getChannelData 1
  else t.audioBuffer.getChannelData 0

/-- The envelope gain the mixing loop applies to source sample `i` of a
track (AudioVideoSync.ts lines 140-144). -/
def trackVol (s : AudioVideoSyncSettings) (r : ℕ) (t : SyncedAudioTrack)
    (i : ℕ) : ℚ :=
  calculateVolumeAtTime s ((i : ℚ) / (r : ℚ)) t.audioClip.duration t.volume

/-- `startSample` of a track (AudioVideoSync.ts line 126). -/
def trackStart (r : ℕ) (t : SyncedAudioTrack) : ℤ := ⌊t.startTime * (r : ℚ)⌋

/-- One iteration of the inner mixing loop, with the track-derived data
(`start`, channels, envelope) abstracted. -/
def mixStep (T start : ℤ) (L R : List ℚ) (vol : ℕ → ℚ)
    (acc : List ℚ × List ℚ) (i : ℕ) : List ℚ × List ℚ :=
  if start + (i : ℤ) < T then
    if 0 ≤ start + (i : ℤ) ∧ start + (i : ℤ) < T then
      (acc.1.set (start + (i : ℤ)).toNat
        (acc.1.getD (start + (i : ℤ)).toNat 0 + L.getD i 0 * vol i),
       acc.2.set (start + (i : ℤ)).toNat
        (acc.2.getD (start + (i : ℤ)).toNat 0 + R.getD i 0 * vol i))
    else acc
  else acc

/-- Total contribution of a source channel `input` with envelope `vol`
placed at `start` to master sample `j`, after `k` loop iterations. -/
def loopContrib (start : ℤ) (input : List ℚ) (vol : ℕ → ℚ) (k j : ℕ) : ℚ :=
  if start ≤ (j : ℤ) ∧ (j : ℤ) < start + (k : ℤ) then
    input.getD ((j : ℤ) - start).toNat 0 * vol ((j : ℤ) - start).toNat
  else 0

lemma mixTrackInto_eq (s : AudioVideoSyncSettings) (r : ℕ) (T : ℤ)
    (out : List ℚ × List ℚ) (t : SyncedAudioTrack) :
    mixTrackInto s r T out t =
      (List.range t.audioBuffer.length).foldl
        (mixStep T (trackStart r t) (t.audioBuffer.getChannelData 0)
          (inputRightOf t) (trackVol s r t)) out := rfl

lemma loopContrib_zero (start : ℤ) (input : List ℚ) (vol : ℕ → ℚ) (j : ℕ) :
    loopContrib start input vol 0 j = 0 := by
  unfold loopContrib
  rw [if_neg]
  omega

lemma loopContrib_succ_ne (start : ℤ) (input : List ℚ) (vol : ℕ → ℚ)
    (k j : ℕ) (h : (j : ℤ) ≠ start + (k : ℤ)) :
    loopContrib start input vol (k+1) j = loopContrib start input vol k j := by
  unfold loopContrib
  by_cases h1 : start ≤ (j : ℤ) ∧ (j : ℤ) < start + ((k : ℕ) : ℤ)
  · rw [if_pos h1, if_pos]
    push_cast
    omega
  · rw [if_neg h1, if_neg]
    push_cast at h1 ⊢
    omega

lemma loopContrib_succ_self (start : ℤ) (input : List ℚ) (vol : ℕ → ℚ)
    (k j : ℕ) (h : (j : ℤ) = start + (k : ℤ)) :
    loopContrib start input vol (k+1) j =
      loopContrib start input vol k j + input.getD k 0 * vol k := by
  have hcond1 : start ≤ (j : ℤ) ∧ (j : ℤ) < start + ((k + 1 : ℕ) : ℤ) := by
    omega
  have hcond2 : ¬ (start ≤ (j : ℤ) ∧ (j : ℤ) < start + ((k : ℕ) : ℤ)) := by
    omega
  have hi : ((j : ℤ) - start).toNat = k := by omega
  unfold loopContrib
  rw [if_pos hcond1, if_neg hcond2, hi, zero_add]

lemma mixStep_fold (T start : ℤ) (L R : List ℚ) (vol : ℕ → ℚ) :
    ∀ (k : ℕ) (out : List ℚ × List ℚ),
      ((List.range k).foldl (mixStep T start L R vol) out).1.length =
        out.1.length ∧
      ((List.range k).foldl (mixStep T start L R vol) out).2.length =
        out.2.length ∧
      (out.1.length = T.toNat → out.2.length = T.toNat →
        ∀ j, j < T.toNat →
          ((List.range k).foldl (mixStep T start L R vol) out).1.getD j 0 =
            out.1.getD j 0 + loopContrib start L vol k j ∧
          ((List.range k).foldl (mixStep T start L R vol) out).2.getD j 0 =
            out.2.getD j 0 + loopContrib start R vol k j) := by
  intro k
  induction k with
  | zero =>
    intro out
    refine ⟨rfl, rfl, fun _ _ j _ => ?_⟩
    rw [loopContrib_zero, loopContrib_zero, add_zero, add_zero]
    exact ⟨rfl, rfl⟩
  | succ k ih =>
    intro out
    rw [List.range_succ, List.foldl_append, List.foldl_cons, List.foldl_nil]
    obtain ⟨ihl1, ihl2, ihv⟩ := ih out
    set mid := (List.range k).foldl (mixStep T start L R vol) out with hmid
    unfold mixStep
    by_cases hlt : start + (k : ℤ) < T
    · rw [if_pos hlt]
      by_cases hge : 0 ≤ start + (k : ℤ)
      · rw [if_pos ⟨hge, hlt⟩]
        refine ⟨by simpa using ihl1, by simpa using ihl2, ?_⟩
        intro h1 h2 j hj
        obtain ⟨ihj1, ihj2⟩ := ihv h1 h2 j hj
        have hp : (start + (k : ℤ)).toNat < T.toNat := by omega
        by_cases hjp : j = (start + (k : ℤ)).toNat
        · subst hjp
          have hjz : (((start + (k : ℤ)).toNat : ℕ) : ℤ) = start + (k : ℤ) :=
            Int.toNat_of_nonneg hge
          constructor
          · rw [List.getD_eq_getElem?_getD,
              List.getElem?_set_self (by rw [ihl1, h1]; exact hp),
              Option.getD_some, ihj1,
              loopContrib_succ_self start L vol k _ hjz]
            ring
          · rw [List.getD_eq_getElem?_getD,
              List.getElem?_set_self (by rw [ihl2, h2]; exact hp),
              Option.getD_some, ihj2,
              loopContrib_succ_self start R vol k _ hjz]
            ring
        · have hne : ((start + (k : ℤ)).toNat : ℤ) ≠ (j : ℤ) := by omega
          have hjz : (j : ℤ) ≠ start + (k : ℤ) := by omega
          constructor
          · rw [List.getD_eq_getElem?_getD,
              List.getElem?_set_ne (fun hC => hjp hC.symm),
              ← List.getD_eq_getElem?_getD, ihj1,
              loopContrib_succ_ne start L vol k j hjz]
          · rw [List.getD_eq_getElem?_getD,
              List.getElem?_set_ne (fun hC => hjp hC.symm),
              ← List.getD_eq_getElem?_getD, ihj2,
              loopContrib_succ_ne start R vol k j hjz]
      · rw [if_neg (fun hC => hge hC.1)]
        refine ⟨ihl1, ihl2, ?_⟩
        intro h1 h2 j hj
        obtain ⟨ihj1, ihj2⟩ := ihv h1 h2 j hj
        have hjz : (j : ℤ) ≠ start + (k : ℤ) := by omega
        rw [ihj1, ihj2, loopContrib_succ_ne start L vol k j hjz,
          loopContrib_succ_ne start R vol k j hjz]
        exact ⟨rfl, rfl⟩
    · rw [if_neg hlt]
      refine ⟨ihl1, ihl2, ?_⟩
      intro h1 h2 j hj
      obtain ⟨ihj1, ihj2⟩ := ihv h1 h2 j hj
      have hjT : (j : ℤ) < T := Int.lt_toNat.mp hj
      have hjz : (j : ℤ) ≠ start + (k : ℤ) := by omega
      rw [ihj1, ihj2, loopContrib_succ_ne start L vol k j hjz,
        loopContrib_succ_ne start R vol k j hjz]
      exact ⟨rfl, rfl⟩

/-- The left-channel contribution of a whole track to master sample `j`. -/
def trackContribL (s : AudioVideoSyncSettings) (r : ℕ) (t : SyncedAudioTrack)
    (j : ℕ) : ℚ :=
  loopContrib (trackStart r t) (t.audioBuffer.getChannelData 0) (trackVol s r t)
    t.audioBuffer.length j

/-- The right-channel contribution of a whole track to master sample `j`. -/
def trackContribR (s : AudioVideoSyncSettings) (r : ℕ) (t : SyncedAudioTrack)
    (j : ℕ) : ℚ :=
  loopContrib (trackStart r t) (inputRightOf t) (trackVol s r t)
    t.audioBuffer.length j

lemma mixTracksFold_getD (s : AudioVideoSyncSettings) (r : ℕ) (T : ℤ) :
    ∀ (l : List SyncedAudioTrack) (out : List ℚ × List ℚ),
      (l.foldl (mixTrackInto s r T) out).1.length = out.1.length ∧
      (l.foldl (mixTrackInto s r T) out).2.length = out.2.length ∧
      (out.1.length = T.toNat → out.2.length = T.toNat →
        ∀ j, j < T.toNat →
          (l.foldl (mixTrackInto s r T) out).1.getD j 0 =
            out.1.getD j 0 + (l.map (fun t => trackContribL s r t j)).sum ∧
          (l.foldl (mixTrackInto s r T) out).2.getD j 0 =
            out.2.getD j 0 + (l.map (fun t => trackContribR s r t j)).sum) := by
  intro l
  induction l with
  | nil =>
    intro out
    refine ⟨rfl, rfl, fun _ _ j _ => ?_⟩
    simp
  | cons t ts ih =>
    intro out
    rw [List.foldl_cons]
    obtain ⟨sl1, sl2, sv⟩ := ih (mixTrackInto s r T out t)
    rw [mixTrackInto_eq] at sl1 sl2 sv ⊢
    obtain ⟨ol1, ol2, ov⟩ :=
      mixStep_fold T (trackStart r t) (t.audioBuffer.getChannelData 0)
        (inputRightOf t) (trackVol s r t) t.audioBuffer.length out
    refine ⟨by rw [sl1, ol1], by rw [sl2, ol2], ?_⟩
    intro h1 h2 j hj
    obtain ⟨sv1, sv2⟩ := sv (by rw [ol1, h1]) (by rw [ol2, h2]) j hj
    obtain ⟨ov1, ov2⟩ := ov h1 h2 j hj
    rw [List.map_cons, List.sum_cons, List.map_cons, List.sum_cons]
    constructor
    · rw [sv1, ov1]
      unfold trackContribL
      ring
    · rw [sv2, ov2]
      unfold trackContribR
      ring

lemma list_eq_of_getD {P Q : List ℚ} (hl : P.length = Q.length)
    (h : ∀ j, j < P.length → P.getD j 0 = Q.getD j 0) : P = Q := by
  apply List.ext_getElem hl
  intro j h1 h2
  have hj := h j h1
  rw [List.getD_eq_getElem?_getD, List.getD_eq_getElem?_getD,
    List.getElem?_eq_getElem h1, List.getElem?_eq_getElem h2] at hj
  exact hj

/-- C4: mixing is order-independent in exact arithmetic — for any
permutation of the synced-track list in which all source buffers share one
sample rate, `mixAudioTracks` returns the same result (the same master
buffer sample for sample, or the same error when the list is empty). -/
theorem mixAudioTracks_perm (s : AudioVideoSyncSettings)
    (l l' : List SyncedAudioTrack) (hp : l.Perm l')
    (hr : ∀ t1 ∈ l, ∀ t2 ∈ l,
      t1.audioBuffer.sampleRate = t2.audioBuffer.sampleRate) :
    mixAudioTracks s l = mixAudioTracks s l' := by
  cases l with
  | nil =>
    rw [hp.nil_eq.symm]
  | cons a as =>
    cases l' with
    | nil => exact absurd hp.eq_nil (List.cons_ne_nil a as)
    | cons b bs =>
      have hb : b ∈ a :: as := hp.mem_iff.mpr (List.mem_cons_self b bs)
      have hrate : b.audioBuffer.sampleRate = a.audioBuffer.sampleRate :=
        hr b hb a (List.mem_cons_self a as)
      have hdur : listMaxQ ((a :: as).map (·.endTime)) =
          listMaxQ ((b :: bs).map (·.endTime)) :=
        listMaxQ_perm (hp.map (·.endTime))
      show Except.ok _ = Except.ok _
      rw [hrate, ← hdur]
      set r := a.audioBuffer.sampleRate with hrdef
      set T : ℤ := ⌈listMaxQ ((a :: as).map (·.endTime)) * (r : ℚ)⌉ with hTdef
      set init : List ℚ × List ℚ :=
        (List.replicate T.toNat (0:ℚ), List.replicate T.toNat (0:ℚ)) with hinit
      obtain ⟨al1, al2, av⟩ := mixTracksFold_getD s r T (a :: as) init
      obtain ⟨bl1, bl2, bv⟩ := mixTracksFold_getD s r T (b :: bs) init
      have hi1 : init.1.length = T.toNat := List.length_replicate _ _
      have hi2 : init.2.length = T.toNat := List.length_replicate _ _
      have hL : ((a :: as).foldl (mixTrackInto s r T) init).1 =
          ((b :: bs).foldl (mixTrackInto s r T) init).1 := by
        apply list_eq_of_getD (by rw [al1, bl1])
        intro j hj
        have hjT : j < T.toNat := by rw [al1, hi1] at hj; exact hj
        rw [(av hi1 hi2 j hjT).1, (bv hi1 hi2 j hjT).1]
        congr 1
        exact ((hp.map (fun t => trackContribL s r t j)).sum_eq)
      have hR : ((a :: as).foldl (mixTrackInto s r T) init).2 =
          ((b :: bs).foldl (mixTrackInto s r T) init).2 := by
        apply list_eq_of_getD (by rw [al2, bl2])
        intro j hj
        have hjT : j < T.toNat := by rw [al2, hi2] at hj; exact hj
        rw [(av hi1 hi2 j hjT).2, (bv hi1 hi2 j hjT).2]
        congr 1
        exact ((hp.map (fun t => trackContribR s r t j)).sum_eq)
      rw [hL, hR]

/-- C4 witness: swapping the two concrete synced clips leaves the mix
unchanged. -/
theorem mixAudioTracks_perm_witness :
    mixAudioTracks zeroFadeSettings [syncedA, syncedB] =
      mixAudioTracks zeroFadeSettings [syncedB, syncedA] :=
  mixAudioTracks_perm zeroFadeSettings [syncedA, syncedB] [syncedB, syncedA]
    (List.Perm.swap syncedB syncedA [])
    (by
      intro t1 h1 t2 h2
      rcases List.mem_cons.mp h1 with rfl | h1' <;>
        rcases List.mem_cons.mp h2 with rfl | h2'
      · rfl
      · rcases List.mem_cons.mp h2' with rfl | h2'' <;> first | rfl | cases h2''
      · rcases List.mem_cons.mp h1' with rfl | h1'' <;> first | rfl | cases h1''
      · rcases List.mem_cons.mp h1' with rfl | h1'' <;>
          rcases List.mem_cons.mp h2' with rfl | h2'' <;>
          first | rfl | (try cases h1'') <;> (try cases h2''))

/-! ## C5 — PCM/WAV container layout

The `DataView` writes of `exportAudioAsWAV` are pushed into the 44-byte
header prefix (all header offsets are below 44) and the sequential
`setInt16` sample writes are shown to overwrite the zeroed data region with
the little-endian sample bytes, yielding the spec's concatenated layout. -/

lemma length_setUint8 (buf : List ℕ) (o v : ℕ) :
    (setUint8 buf o v).length = buf.length := List.length_set ..

lemma length_setUint16 (buf : List ℕ) (o v : ℕ) :
    (setUint16 buf o v).length = buf.length := by
  unfold setUint16
  rw [List.length_set, List.length_set]

lemma length_setUint32 (buf : List ℕ) (o v : ℕ) :
    (setUint32 buf o v).length = buf.length := by
  unfold setUint32
  rw [List.length_set, List.length_set, List.length_set, List.length_set]

lemma setUint8_append (a b : List ℕ) (o v : ℕ) (h : o < a.length) :
    setUint8 (a ++ b) o v = setUint8 a o v ++ b := by
  unfold setUint8
  rw [List.set_append_left _ _ h]

lemma setUint16_append (a b : List ℕ) (o v : ℕ) (h : o + 1 < a.length) :
    setUint16 (a ++ b) o v = setUint16 a o v ++ b := by
  unfold setUint16
  rw [List.set_append_left _ _ (by omega),
    List.set_append_left _ _ (by rw [List.length_set]; exact h)]

lemma setUint32_append (a b : List ℕ) (o v : ℕ) (h : o + 3 < a.length) :
    setUint32 (a ++ b) o v = setUint32 a o v ++ b := by
  unfold setUint32
  rw [List.set_append_left _ _ (by omega),
    List.set_append_left _ _ (by rw [List.length_set]; omega),
    List.set_append_left _ _ (by rw [List.length_set, List.length_set]; omega),
    List.set_append_left _ _
      (by rw [List.length_set, List.length_set, List.length_set]; exact h)]

lemma writeStr_riff (buf : List ℕ) (o : ℕ) :
    writeStr buf o "RIFF" =
      setUint8 (setUint8 (setUint8 (setUint8 buf (o+0) 82) (o+1) 73)
        (o+2) 70) (o+3) 70 := rfl

lemma writeStr_wave (buf : List ℕ) (o : ℕ) :
    writeStr buf o "WAVE" =
      setUint8 (setUint8 (setUint8 (setUint8 buf (o+0) 87) (o+1) 65)
        (o+2) 86) (o+3) 69 := rfl

lemma writeStr_fmt (buf : List ℕ) (o : ℕ) :
    writeStr buf o "fmt " =
      setUint8 (setUint8 (setUint8 (setUint8 buf (o+0) 102) (o+1) 109)
        (o+2) 116) (o+3) 32 := rfl

lemma writeStr_data (buf : List ℕ) (o : ℕ) :
    writeStr buf o "data" =
      setUint8 (setUint8 (setUint8 (setUint8 buf (o+0) 100) (o+1) 97)
        (o+2) 116) (o+3) 97 := rfl

lemma asciiBytes_riff : asciiBytes "RIFF" = [82, 73, 70, 70] := rfl

lemma asciiBytes_wave : asciiBytes "WAVE" = [87, 65, 86, 69] := rfl

lemma asciiBytes_fmt : asciiBytes "fmt " = [102, 109, 116, 32] := rfl

lemma asciiBytes_data : asciiBytes "data" = [100, 97, 116, 97] := rfl

lemma setInt16_boundary (pre : List ℕ) (r0 r1 : ℕ) (rest : List ℕ) (v : ℤ) :
    setInt16 (pre ++ r0 :: r1 :: rest) pre.length v = pre ++ i16le v ++ rest := by
  unfold setInt16 i16le
  rw [List.set_append_right _ _ (le_refl _), Nat.sub_self,
    List.set_append_right _ _ (by omega)]
  have h1 : pre.length + 1 - pre.length = 1 := by omega
  rw [h1]
  simp [List.set]

lemma writeInt16s :
    ∀ (vs : List ℤ) (pre rest : List ℕ), 2 * vs.length ≤ rest.length →
      vs.foldl (fun (acc : List ℕ × ℕ) v => (setInt16 acc.1 acc.2 v, acc.2 + 2))
          (pre ++ rest, pre.length) =
        (pre ++ vs.flatMap i16le ++ rest.drop (2 * vs.length),
          pre.length + 2 * vs.length) := by
  intro vs
  induction vs with
  | nil =>
    intro pre rest _
    simp
  | cons v vs ih =>
    intro pre rest h
    match rest with
    | [] => simp at h
    | [r0] => simp at h; omega
    | r0 :: r1 :: rest' =>
      rw [List.foldl_cons]
      have hstep : (setInt16 (pre ++ r0 :: r1 :: rest') pre.length v,
          pre.length + 2) =
          ((pre ++ i16le v) ++ rest', (pre ++ i16le v).length) := by
        rw [setInt16_boundary, List.append_assoc]
        simp [List.length_append, i16le]
      rw [hstep, ih (pre ++ i16le v) rest' (by
        simp only [List.length_cons] at h
        omega)]
      have hdrop : (r0 :: r1 :: rest').drop (2 * (vs.length + 1)) =
          rest'.drop (2 * vs.length) := by
        have : 2 * (vs.length + 1) = 2 * vs.length + 1 + 1 := by omega
        rw [this, List.drop_succ_cons, List.drop_succ_cons]
      simp only [Prod.mk.injEq, List.flatMap_cons, List.length_cons, hdrop,
        List.append_assoc, List.length_append]
      constructor
      · trivial
      · have h2 : (i16le v).length = 2 := rfl
        rw [h2]
        omega

lemma dataFold_eq (f : ℕ → ℕ → ℤ) (C : ℕ) :
    ∀ (ls : List ℕ) (acc : List ℕ × ℕ),
      ls.foldl (fun acc1 i => (List.range C).foldl
        (fun acc2 channel =>
          (setInt16 acc2.1 acc2.2 (f i channel), acc2.2 + 2)) acc1) acc =
      (ls.flatMap (fun i => (List.range C).map (f i))).foldl
        (fun acc2 v => (setInt16 acc2.1 acc2.2 v, acc2.2 + 2)) acc := by
  intro ls
  induction ls with
  | nil => intro acc; rfl
  | cons i ls ih =>
    intro acc
    rw [List.foldl_cons, List.flatMap_cons, List.foldl_append, ih,
      List.foldl_map]


lemma wavHeader_length (m ch rate : ℕ) : (wavHeader m ch rate).length = 44 := by
  simp [wavHeader, asciiBytes_riff, asciiBytes_wave, asciiBytes_fmt,
    asciiBytes_data, u16le, u32le]

set_option maxHeartbeats 1000000 in
lemma header_push_eval (m ch rate : ℕ) :
    setUint32 (writeStr (setUint16 (setUint16 (setUint32 (setUint32
      (setUint16 (setUint16 (setUint32 (writeStr (writeStr (setUint32
        (writeStr (List.replicate (44 + m) 0) 0 "RIFF") 4 (36 + m)) 8 "WAVE")
        12 "fmt ") 16 16) 20 1) 22 ch) 24 rate) 28 (rate * ch * 2))
      32 (ch * 2)) 34 16) 36 "data") 40 m =
    wavHeader m ch rate ++ List.replicate m 0 := by
  rw [List.replicate_add]
  simp only [writeStr_riff, writeStr_wave, writeStr_fmt, writeStr_data,
    setUint8_append, setUint16_append, setUint32_append, length_setUint8,
    length_setUint16, length_setUint32, List.length_replicate,
    Nat.reduceAdd, Nat.reduceLT]
  have e1 :
      setUint8 (setUint8 (setUint8 (setUint8 (List.replicate 44 0) 0 82) 1 73) 2 70) 3 70 =
      [82, 73, 70, 70, 0, 0, 0, 0, 0, 0, 0, 0, 0, 0, 0, 0, 0, 0, 0, 0, 0, 0, 0, 0, 0, 0, 0, 0, 0, 0, 0, 0, 0, 0, 0, 0, 0, 0, 0, 0, 0, 0, 0, 0] := rfl
  have e2 :
      setUint32 ([82, 73, 70, 70, 0, 0, 0, 0, 0, 0, 0, 0, 0, 0, 0, 0, 0, 0, 0, 0, 0, 0, 0, 0, 0, 0, 0, 0, 0, 0, 0, 0, 0, 0, 0, 0, 0, 0, 0, 0, 0, 0, 0, 0]) 4 (36 + m) =
      [82, 73, 70, 70, (36 + m) % 256, (36 + m) / 256 % 256, (36 + m) / 65536 % 256, (36 + m) / 16777216 % 256, 0, 0, 0, 0, 0, 0, 0, 0, 0, 0, 0, 0, 0, 0, 0, 0, 0, 0, 0, 0, 0, 0, 0, 0, 0, 0, 0, 0, 0, 0, 0, 0, 0, 0, 0, 0] := rfl
  have e3 :
      setUint8 (setUint8 (setUint8 (setUint8 ([82, 73, 70, 70, (36 + m) % 256, (36 + m) / 256 % 256, (36 + m) / 65536 % 256, (36 + m) / 16777216 % 256, 0, 0, 0, 0, 0, 0, 0, 0, 0, 0, 0, 0, 0, 0, 0, 0, 0, 0, 0, 0, 0, 0, 0, 0, 0, 0, 0, 0, 0, 0, 0, 0, 0, 0, 0, 0]) 8 87) 9 65) 10 86) 11 69 =
      [82, 73, 70, 70, (36 + m) % 256, (36 + m) / 256 % 256, (36 + m) / 65536 % 256, (36 + m) / 16777216 % 256, 87, 65, 86, 69, 0, 0, 0, 0, 0, 0, 0, 0, 0, 0, 0, 0, 0, 0, 0, 0, 0, 0, 0, 0, 0, 0, 0, 0, 0, 0, 0, 0, 0, 0, 0, 0] := rfl
  have e4 :
      setUint8 (setUint8 (setUint8 (setUint8 ([82, 73, 70, 70, (36 + m) % 256, (36 + m) / 256 % 256, (36 + m) / 65536 % 256, (36 + m) / 16777216 % 256, 87, 65, 86, 69, 0, 0, 0, 0, 0, 0, 0, 0, 0, 0, 0, 0, 0, 0, 0, 0, 0, 0, 0, 0, 0, 0, 0, 0, 0, 0, 0, 0, 0, 0, 0, 0]) 12 102) 13 109) 14 116) 15 32 =
      [82, 73, 70, 70, (36 + m) % 256, (36 + m) / 256 % 256, (36 + m) / 65536 % 256, (36 + m) / 16777216 % 256, 87, 65, 86, 69, 102, 109, 116, 32, 0, 0, 0, 0, 0, 0, 0, 0, 0, 0, 0, 0, 0, 0, 0, 0, 0, 0, 0, 0, 0, 0, 0, 0, 0, 0, 0, 0] := rfl
  have e5 :
      setUint32 ([82, 73, 70, 70, (36 + m) % 256, (36 + m) / 256 % 256, (36 + m) / 65536 % 256, (36 + m) / 16777216 % 256, 87, 65, 86, 69, 102, 109, 116, 32, 0, 0, 0, 0, 0, 0, 0, 0, 0, 0, 0, 0, 0, 0, 0, 0, 0, 0, 0, 0, 0, 0, 0, 0, 0, 0, 0, 0]) 16 16 =
      [82, 73, 70, 70, (36 + m) % 256, (36 + m) / 256 % 256, (36 + m) / 65536 % 256, (36 + m) / 16777216 % 256, 87, 65, 86, 69, 102, 109, 116, 32, 16, 0, 0, 0, 0, 0, 0, 0, 0, 0, 0, 0, 0, 0, 0, 0, 0, 0, 0, 0, 0, 0, 0, 0, 0, 0, 0, 0] := rfl
  have e6 :
      setUint16 ([82, 73, 70, 70, (36 + m) % 256, (36 + m) / 256 % 256, (36 + m) / 65536 % 256, (36 + m) / 16777216 % 256, 87, 65, 86, 69, 102, 109, 116, 32, 16, 0, 0, 0, 0, 0, 0, 0, 0, 0, 0, 0, 0, 0, 0, 0, 0, 0, 0, 0, 0, 0, 0, 0, 0, 0, 0, 0]) 20 1 =
      [82, 73, 70, 70, (36 + m) % 256, (36 + m) / 256 % 256, (36 + m) / 65536 % 256, (36 + m) / 16777216 % 256, 87, 65, 86, 69, 102, 109, 116, 32, 16, 0, 0, 0, 1, 0, 0, 0, 0, 0, 0, 0, 0, 0, 0, 0, 0, 0, 0, 0, 0, 0, 0, 0, 0, 0, 0, 0] := rfl
  have e7 :
      setUint16 ([82, 73, 70, 70, (36 + m) % 256, (36 + m) / 256 % 256, (36 + m) / 65536 % 256, (36 + m) / 16777216 % 256, 87, 65, 86, 69, 102, 109, 116, 32, 16, 0, 0, 0, 1, 0, 0, 0, 0, 0, 0, 0, 0, 0, 0, 0, 0, 0, 0, 0, 0, 0, 0, 0, 0, 0, 0, 0]) 22 ch =
      [82, 73, 70, 70, (36 + m) % 256, (36 + m) / 256 % 256, (36 + m) / 65536 % 256, (36 + m) / 16777216 % 256, 87, 65, 86, 69, 102, 109, 116, 32, 16, 0, 0, 0, 1, 0, ch % 256, ch / 256 % 256, 0, 0, 0, 0, 0, 0, 0, 0, 0, 0, 0, 0, 0, 0, 0, 0, 0, 0, 0, 0] := rfl
  have e8 :
      setUint32 ([82, 73, 70, 70, (36 + m) % 256, (36 + m) / 256 % 256, (36 + m) / 65536 % 256, (36 + m) / 16777216 % 256, 87, 65, 86, 69, 102, 109, 116, 32, 16, 0, 0, 0, 1, 0, ch % 256, ch / 256 % 256, 0, 0, 0, 0, 0, 0, 0, 0, 0, 0, 0, 0, 0, 0, 0, 0, 0, 0, 0, 0]) 24 rate =
      [82, 73, 70, 70, (36 + m) % 256, (36 + m) / 256 % 256, (36 + m) / 65536 % 256, (36 + m) / 16777216 % 256, 87, 65, 86, 69, 102, 109, 116, 32, 16, 0, 0, 0, 1, 0, ch % 256, ch / 256 % 256, rate % 256, rate / 256 % 256, rate / 65536 % 256, rate / 16777216 % 256, 0, 0, 0, 0, 0, 0, 0, 0, 0, 0, 0, 0, 0, 0, 0, 0] := rfl
  have e9 :
      setUint32 ([82, 73, 70, 70, (36 + m) % 256, (36 + m) / 256 % 256, (36 + m) / 65536 % 256, (36 + m) / 16777216 % 256, 87, 65, 86, 69, 102, 109, 116, 32, 16, 0, 0, 0, 1, 0, ch % 256, ch / 256 % 256, rate % 256, rate / 256 % 256, rate / 65536 % 256, rate / 16777216 % 256, 0, 0, 0, 0, 0, 0, 0, 0, 0, 0, 0, 0, 0, 0, 0, 0]) 28 (rate * ch * 2) =
      [82, 73, 70, 70, (36 + m) % 256, (36 + m) / 256 % 256, (36 + m) / 65536 % 256, (36 + m) / 16777216 % 256, 87, 65, 86, 69, 102, 109, 116, 32, 16, 0, 0, 0, 1, 0, ch % 256, ch / 256 % 256, rate % 256, rate / 256 % 256, rate / 65536 % 256, rate / 16777216 % 256, rate * ch * 2 % 256, rate * ch * 2 / 256 % 256, rate * ch * 2 / 65536 % 256, rate * ch * 2 / 16777216 % 256, 0, 0, 0, 0, 0, 0, 0, 0, 0, 0, 0, 0] := rfl
  have e10 :
      setUint16 ([82, 73, 70, 70, (36 + m) % 256, (36 + m) / 256 % 256, (36 + m) / 65536 % 256, (36 + m) / 16777216 % 256, 87, 65, 86, 69, 102, 109, 116, 32, 16, 0, 0, 0, 1, 0, ch % 256, ch / 256 % 256, rate % 256, rate / 256 % 256, rate / 65536 % 256, rate / 16777216 % 256, rate * ch * 2 % 256, rate * ch * 2 / 256 % 256, rate * ch * 2 / 65536 % 256, rate * ch * 2 / 16777216 % 256, 0, 0, 0, 0, 0, 0, 0, 0, 0, 0, 0, 0]) 32 (ch * 2) =
      [82, 73, 70, 70, (36 + m) % 256, (36 + m) / 256 % 256, (36 + m) / 65536 % 256, (36 + m) / 16777216 % 256, 87, 65, 86, 69, 102, 109, 116, 32, 16, 0, 0, 0, 1, 0, ch % 256, ch / 256 % 256, rate % 256, rate / 256 % 256, rate / 65536 % 256, rate / 16777216 % 256, rate * ch * 2 % 256, rate * ch * 2 / 256 % 256, rate * ch * 2 / 65536 % 256, rate * ch * 2 / 16777216 % 256, ch * 2 % 256, ch * 2 / 256 % 256, 0, 0, 0, 0, 0, 0, 0, 0, 0, 0] := rfl
  have e11 :
      setUint16 ([82, 73, 70, 70, (36 + m) % 256, (36 + m) / 256 % 256, (36 + m) / 65536 % 256, (36 + m) / 16777216 % 256, 87, 65, 86, 69, 102, 109, 116, 32, 16, 0, 0, 0, 1, 0, ch % 256, ch / 256 % 256, rate % 256, rate / 256 % 256, rate / 65536 % 256, rate / 16777216 % 256, rate * ch * 2 % 256, rate * ch * 2 / 256 % 256, rate * ch * 2 / 65536 % 256, rate * ch * 2 / 16777216 % 256, ch * 2 % 256, ch * 2 / 256 % 256, 0, 0, 0, 0, 0, 0, 0, 0, 0, 0]) 34 16 =
      [82, 73, 70, 70, (36 + m) % 256, (36 + m) / 256 % 256, (36 + m) / 65536 % 256, (36 + m) / 16777216 % 256, 87, 65, 86, 69, 102, 109, 116, 32, 16, 0, 0, 0, 1, 0, ch % 256, ch / 256 % 256, rate % 256, rate / 256 % 256, rate / 65536 % 256, rate / 16777216 % 256, rate * ch * 2 % 256, rate * ch * 2 / 256 % 256, rate * ch * 2 / 65536 % 256, rate * ch * 2 / 16777216 % 256, ch * 2 % 256, ch * 2 / 256 % 256, 16, 0, 0, 0, 0, 0, 0, 0, 0, 0] := rfl
  have e12 :
      setUint8 (setUint8 (setUint8 (setUint8 ([82, 73, 70, 70, (36 + m) % 256, (36 + m) / 256 % 256, (36 + m) / 65536 % 256, (36 + m) / 16777216 % 256, 87, 65, 86, 69, 102, 109, 116, 32, 16, 0, 0, 0, 1, 0, ch % 256, ch / 256 % 256, rate % 256, rate / 256 % 256, rate / 65536 % 256, rate / 16777216 % 256, rate * ch * 2 % 256, rate * ch * 2 / 256 % 256, rate * ch * 2 / 65536 % 256, rate * ch * 2 / 16777216 % 256, ch * 2 % 256, ch * 2 / 256 % 256, 16, 0, 0, 0, 0, 0, 0, 0, 0, 0]) 36 100) 37 97) 38 116) 39 97 =
      [82, 73, 70, 70, (36 + m) % 256, (36 + m) / 256 % 256, (36 + m) / 65536 % 256, (36 + m) / 16777216 % 256, 87, 65, 86, 69, 102, 109, 116, 32, 16, 0, 0, 0, 1, 0, ch % 256, ch / 256 % 256, rate % 256, rate / 256 % 256, rate / 65536 % 256, rate / 16777216 % 256, rate * ch * 2 % 256, rate * ch * 2 / 256 % 256, rate * ch * 2 / 65536 % 256, rate * ch * 2 / 16777216 % 256, ch * 2 % 256, ch * 2 / 256 % 256, 16, 0, 100, 97, 116, 97, 0, 0, 0, 0] := rfl
  have e13 :
      setUint32 ([82, 73, 70, 70, (36 + m) % 256, (36 + m) / 256 % 256, (36 + m) / 65536 % 256, (36 + m) / 16777216 % 256, 87, 65, 86, 69, 102, 109, 116, 32, 16, 0, 0, 0, 1, 0, ch % 256, ch / 256 % 256, rate % 256, rate / 256 % 256, rate / 65536 % 256, rate / 16777216 % 256, rate * ch * 2 % 256, rate * ch * 2 / 256 % 256, rate * ch * 2 / 65536 % 256, rate * ch * 2 / 16777216 % 256, ch * 2 % 256, ch * 2 / 256 % 256, 16, 0, 100, 97, 116, 97, 0, 0, 0, 0]) 40 m =
      [82, 73, 70, 70, (36 + m) % 256, (36 + m) / 256 % 256, (36 + m) / 65536 % 256, (36 + m) / 16777216 % 256, 87, 65, 86, 69, 102, 109, 116, 32, 16, 0, 0, 0, 1, 0, ch % 256, ch / 256 % 256, rate % 256, rate / 256 % 256, rate / 65536 % 256, rate / 16777216 % 256, rate * ch * 2 % 256, rate * ch * 2 / 256 % 256, rate * ch * 2 / 65536 % 256, rate * ch * 2 / 16777216 % 256, ch * 2 % 256, ch * 2 / 256 % 256, 16, 0, 100, 97, 116, 97, m % 256, m / 256 % 256, m / 65536 % 256, m / 16777216 % 256] := rfl
  have efin :
      ([82, 73, 70, 70, (36 + m) % 256, (36 + m) / 256 % 256, (36 + m) / 65536 % 256, (36 + m) / 16777216 % 256, 87, 65, 86, 69, 102, 109, 116, 32, 16, 0, 0, 0, 1, 0, ch % 256, ch / 256 % 256, rate % 256, rate / 256 % 256, rate / 65536 % 256, rate / 16777216 % 256, rate * ch * 2 % 256, rate * ch * 2 / 256 % 256, rate * ch * 2 / 65536 % 256, rate * ch * 2 / 16777216 % 256, ch * 2 % 256, ch * 2 / 256 % 256, 16, 0, 100, 97, 116, 97, m % 256, m / 256 % 256, m / 65536 % 256, m / 16777216 % 256] : List ℕ) =
      wavHeader m ch rate := rfl
  rw [e1, e2, e3, e4, e5, e6, e7, e8, e9, e10, e11, e12, e13, efin]

/-- `truncQ` rounds toward zero: floor for non-negative arguments, ceiling
for negative ones — the JS `ToInt16` truncating cast, not flooring. -/
lemma truncQ_eq (q : ℚ) : truncQ q = if 0 ≤ q then ⌊q⌋ else ⌈q⌉ := by
  unfold truncQ
  by_cases h : 0 ≤ q
  · rw [if_pos h, Rat.floor_def]
    exact Int.tdiv_eq_ediv (Rat.num_nonneg.mpr h) (by positivity)
  · rw [if_neg h]
    have hnum : ¬ 0 ≤ q.num := fun hc => h (Rat.num_nonneg.mp hc)
    have h1 : q.num.tdiv (q.den : ℤ) = -((-q.num).tdiv (q.den : ℤ)) := by
      rw [← Int.neg_tdiv, neg_neg]
    rw [h1, Int.tdiv_eq_ediv (by omega) (by positivity)]
    have hceil : (⌈q⌉ : ℤ) = -⌊-q⌋ := rfl
    rw [hceil, Rat.floor_def, Rat.neg_num, Rat.neg_den]

lemma sampleInts_length (b : AudioBuffer) :
    (sampleInts b).length = b.length * b.numberOfChannels := by
  unfold sampleInts
  have hfun : (List.length ∘ fun i =>
      (List.range b.numberOfChannels).map (fun channel =>
        truncQ (max (-1) (min 1 ((b.getChannelData channel).getD i 0)) * 32767)))
      = fun _ => b.numberOfChannels := by
    funext i
    simp
  rw [List.length_flatMap, hfun]
  simp [List.map_const', List.sum_replicate, smul_eq_mul]

lemma wavDataSpec_eq (b : AudioBuffer) :
    (sampleInts b).flatMap i16le = wavDataSpec b := by
  unfold sampleInts wavDataSpec
  rw [List.flatMap_assoc]
  simp only [List.flatMap_map]

lemma dataFold_eq_b (b : AudioBuffer) (acc : List ℕ × ℕ) :
    (List.range b.length).foldl (fun acc1 i =>
      (List.range b.numberOfChannels).foldl (fun acc2 channel =>
        (setInt16 acc2.1 acc2.2
          (truncQ (max (-1) (min 1 ((b.getChannelData channel).getD i 0)) * 32767)),
         acc2.2 + 2)) acc1) acc =
    (sampleInts b).foldl
      (fun acc2 v => (setInt16 acc2.1 acc2.2 v, acc2.2 + 2)) acc := by
  unfold sampleInts
  exact dataFold_eq
    (fun i channel =>
      truncQ (max (-1) (min 1 ((b.getChannelData channel).getD i 0)) * 32767))
    b.numberOfChannels (List.range b.length) acc

/-- C5: the WAV encoder emits exactly 44 header bytes — `RIFF`/`WAVE`/
`fmt `/`data` chunk ids, format tag 1, channel count, sample rate, byte
rate `rate*channels*2`, block align `channels*2`, 16 bits per sample, all
multi-byte fields little-endian — followed by the interleaved 16-bit
samples, each float clamped to [-1, 1], scaled by 32767 and truncated
toward zero: the byte output equals the spec layout
`wavHeaderSpec ++ wavDataSpec`, and the shared conversion `truncQ` is the
toward-zero truncating cast (floor on non-negatives, ceiling on
negatives; e.g. `-32767/2` gives `-16383`, not the floored `-16384`). -/
theorem exportAudioAsWAV_spec (b : AudioBuffer) :
    (exportAudioAsWAV b = wavHeaderSpec b ++ wavDataSpec b ∧
      (wavHeaderSpec b).length = 44) ∧
    (∀ q : ℚ, truncQ q = if 0 ≤ q then ⌊q⌋ else ⌈q⌉) ∧
    truncQ (-32767/2) = -16383 := by
  refine ⟨⟨?_, wavHeader_length ..⟩, truncQ_eq, ?_⟩
  case refine_2 =>
    rw [truncQ_eq, if_neg (by norm_num)]
    rw [show (⌈(-32767/2 : ℚ)⌉ : ℤ) = -⌊-(-32767/2 : ℚ)⌋ from rfl]
    norm_num
  have hunfold : exportAudioAsWAV b =
      ((List.range b.length).foldl (fun (acc : List ℕ × ℕ) i =>
          (List.range b.numberOfChannels).foldl (fun acc2 channel =>
            (setInt16 acc2.1 acc2.2
              (truncQ (max (-1) (min 1 ((b.getChannelData channel).getD i 0)) * 32767)),
             acc2.2 + 2)) acc)
        (setUint32 (writeStr (setUint16 (setUint16 (setUint32 (setUint32
          (setUint16 (setUint16 (setUint32 (writeStr (writeStr (setUint32
            (writeStr (List.replicate (44 + b.length * b.numberOfChannels * 2) 0)
              0 "RIFF")
            4 (36 + b.length * b.numberOfChannels * 2)) 8 "WAVE") 12 "fmt ")
            16 16) 20 1) 22 b.numberOfChannels) 24 b.sampleRate)
          28 (b.sampleRate * b.numberOfChannels * 2)) 32 (b.numberOfChannels * 2))
          34 16) 36 "data") 40 (b.length * b.numberOfChannels * 2), 44)).1 := rfl
  rw [hunfold, header_push_eval, dataFold_eq_b]
  rw [show (44:ℕ) = (wavHeader (b.length * b.numberOfChannels * 2)
    b.numberOfChannels b.sampleRate).length from (wavHeader_length ..).symm]
  rw [writeInt16s (sampleInts b)
    (wavHeader (b.length * b.numberOfChannels * 2) b.numberOfChannels b.sampleRate)
    (List.replicate (b.length * b.numberOfChannels * 2) 0)
    (by
      rw [sampleInts_length, List.length_replicate]
      exact Nat.le_of_eq (by ring))]
  rw [wavDataSpec_eq,
    List.drop_eq_nil_of_le (by
      rw [sampleInts_length, List.length_replicate]
      exact Nat.le_of_eq (by ring)),
    List.append_nil]
  rfl

end PodcastFactory
